import Mathlib

/-!
Verification of the gonotify event bus and notification service.

The Go sources are shallowly embedded:
* `float64` values are modelled by `GoFloat`: an exact (unnormalized) fraction
  for finite values plus the IEEE special values `+Inf`, `-Inf` and `NaN`.
  The arithmetic the handlers perform (subtraction, division, multiplication
  by 100, comparisons) is exact on the fractions and follows the IEEE rules
  on the special values, so division by zero produces `±Inf`/`NaN` exactly as
  in Go.  (Rounding of inexact binary results is not modelled; every concrete
  value appearing in the claims is exactly representable.)
* `interface{}` payloads are modelled by the `GoValue` universe.
* Go maps are modelled as association lists with unique keys; map iteration
  order is unspecified in Go, the list order in the model is immaterial to
  the stated properties (they are about counts and membership).
* goroutine dispatch (`sendNotification`) is modelled by the list of
  (messenger, message) send pairs it issues; `time.Now()` is a parameter,
  with the fact that it is never the zero instant passed as a hypothesis.
-/

namespace Gonotify

/-- An exact fraction `num / den` (not necessarily in lowest terms), the
finite part of the `float64` model.  `den` is a natural number; operations
keep it nonnegative. -/
structure Frac where
  num : Int
  den : Nat
deriving DecidableEq, Repr

/-- Value-level strict order on fractions, by cross multiplication. -/
def Frac.blt (a b : Frac) : Bool :=
  decide (a.num * (b.den : Int) < b.num * (a.den : Int))

/-- Value-level order on fractions, by cross multiplication. -/
def Frac.ble (a b : Frac) : Bool :=
  decide (a.num * (b.den : Int) ≤ b.num * (a.den : Int))

/-- The `float64` model: exact finite values plus the IEEE special values. -/
inductive GoFloat where
  | finite (q : Frac)
  | posInf
  | negInf
  | nan
deriving DecidableEq, Repr

/-- The zero float, the zero value of `float64` fields in Go. -/
def GoFloat.zero : GoFloat := .finite ⟨0, 1⟩

/-- Embeds an integer literal as a float. -/
def GoFloat.ofInt (n : Int) : GoFloat := .finite ⟨n, 1⟩

/-- IEEE `<` (comparisons with `NaN` are false). -/
def GoFloat.lt : GoFloat → GoFloat → Bool
  | .nan, _ => false
  | _, .nan => false
  | .finite a, .finite b => Frac.blt a b
  | .finite _, .posInf => true
  | .finite _, .negInf => false
  | .posInf, _ => false
  | .negInf, .negInf => false
  | .negInf, _ => true

/-- IEEE `≤` (comparisons with `NaN` are false). -/
def GoFloat.le : GoFloat → GoFloat → Bool
  | .nan, _ => false
  | _, .nan => false
  | .finite a, .finite b => Frac.ble a b
  | .finite _, .posInf => true
  | .finite _, .negInf => false
  | .posInf, .posInf => true
  | .posInf, _ => false
  | .negInf, _ => true

/-- IEEE `>`. -/
def GoFloat.gt (a b : GoFloat) : Bool := GoFloat.lt b a

/-- IEEE `≥`. -/
def GoFloat.ge (a b : GoFloat) : Bool := GoFloat.le b a

/-- IEEE negation. -/
def GoFloat.neg : GoFloat → GoFloat
  | .finite a => .finite ⟨-a.num, a.den⟩
  | .posInf => .negInf
  | .negInf => .posInf
  | .nan => .nan

/-- IEEE absolute value. -/
def GoFloat.abs : GoFloat → GoFloat
  | .finite a => .finite ⟨(a.num.natAbs : Int), a.den⟩
  | .nan => .nan
  | _ => .posInf

/-- IEEE subtraction. -/
def GoFloat.sub : GoFloat → GoFloat → GoFloat
  | .nan, _ => .nan
  | _, .nan => .nan
  | .finite a, .finite b => .finite ⟨a.num * (b.den : Int) - b.num * (a.den : Int), a.den * b.den⟩
  | .finite _, .posInf => .negInf
  | .finite _, .negInf => .posInf
  | .posInf, .posInf => .nan
  | .posInf, _ => .posInf
  | .negInf, .negInf => .nan
  | .negInf, _ => .negInf

/-- IEEE multiplication. -/
def GoFloat.mul : GoFloat → GoFloat → GoFloat
  | .nan, _ => .nan
  | _, .nan => .nan
  | .finite a, .finite b => .finite ⟨a.num * b.num, a.den * b.den⟩
  | .finite a, .posInf => if a.num = 0 then .nan else if 0 < a.num then .posInf else .negInf
  | .finite a, .negInf => if a.num = 0 then .nan else if 0 < a.num then .negInf else .posInf
  | .posInf, .finite b => if b.num = 0 then .nan else if 0 < b.num then .posInf else .negInf
  | .negInf, .finite b => if b.num = 0 then .nan else if 0 < b.num then .negInf else .posInf
  | .posInf, .posInf => .posInf
  | .posInf, .negInf => .negInf
  | .negInf, .posInf => .negInf
  | .negInf, .negInf => .posInf

/-- IEEE division.  A finite nonzero value divided by zero is a signed
infinity, `0 / 0` is `NaN` — the unguarded `entryPrice = 0` case of
`handlePositionClosed`. -/
def GoFloat.div : GoFloat → GoFloat → GoFloat
  | .nan, _ => .nan
  | _, .nan => .nan
  | .finite a, .finite b =>
      if b.num = 0 then
        (if a.num = 0 then .nan else if 0 < a.num then .posInf else .negInf)
      else .finite ⟨a.num * (b.den : Int) * Int.sign b.num, a.den * b.num.natAbs⟩
  | .finite _, .posInf => .finite ⟨0, 1⟩
  | .finite _, .negInf => .finite ⟨0, 1⟩
  | .posInf, .finite b => if 0 ≤ b.num then .posInf else .negInf
  | .negInf, .finite b => if 0 ≤ b.num then .negInf else .posInf
  | .posInf, _ => .nan
  | .negInf, _ => .nan

/-- Is the value finite (neither infinite nor `NaN`)? -/
def GoFloat.isFinite : GoFloat → Bool
  | .finite _ => true
  | _ => false

/-- Does the value equal (positive) zero? -/
def GoFloat.isZero : GoFloat → Bool
  | .finite q => q.num == 0
  | _ => false

/-- Left pad with zeroes up to width `k`. -/
def padZeros (k : Nat) (s : String) : String :=
  if s.length ≥ k then s else String.mk (List.replicate (k - s.length) '0') ++ s

/-- Fixed-point decimal rendering of the nonnegative fraction `a / d` with
`prec` digits, rounding to nearest (ties to even) — the `%.2f` / `%.6f`
formatting of `fmt.Sprintf`. -/
def fmtFracNN (prec : Nat) (a : Nat) (d : Nat) : String :=
  let scaled := a * 10 ^ prec
  let f := scaled / d
  let r := scaled % d
  let n := if 2 * r > d then f + 1 else if 2 * r < d then f else if f % 2 = 0 then f else f + 1
  toString (n / 10 ^ prec) ++ "." ++ padZeros prec (toString (n % 10 ^ prec))

/-- `fmt.Sprintf` rendering of a float with `prec` fractional digits
(`%.⟨prec⟩f`); the special values print as `+Inf`, `-Inf` and `NaN`. -/
def GoFloat.fmt (prec : Nat) : GoFloat → String
  | .finite q =>
      if q.num < 0 then "-" ++ fmtFracNN prec (-q.num).toNat q.den
      else fmtFracNN prec q.num.toNat q.den
  | .posInf => "+Inf"
  | .negInf => "-Inf"
  | .nan => "NaN"

/-- Is `sub` a prefix of the character list? -/
def isPrefixCh : List Char → List Char → Bool
  | [], _ => true
  | _ :: _, [] => false
  | a :: as, b :: bs => a == b && isPrefixCh as bs

/-- Does `sub` occur contiguously in the character list? -/
def containsCh (sub : List Char) : List Char → Bool
  | [] => isPrefixCh sub []
  | l@(_ :: rest) => isPrefixCh sub l || containsCh sub rest

/-- `strings.Contains`-style substring test, used to state the
"message containing …" clauses of the spec. -/
def strContains (s sub : String) : Bool := containsCh sub.data s.data

theorem isPrefixCh_refl (s : List Char) : isPrefixCh s s = true := by
  induction s with
  | nil => rfl
  | cons a as ih => simp [isPrefixCh, ih]

theorem isPrefixCh_append {sub l : List Char} (y : List Char)
    (h : isPrefixCh sub l = true) : isPrefixCh sub (l ++ y) = true := by
  induction sub generalizing l with
  | nil => rfl
  | cons a as ih =>
      cases l with
      | nil => simp [isPrefixCh] at h
      | cons b bs =>
          simp [isPrefixCh] at h ⊢
          exact ⟨h.1, ih h.2⟩

theorem containsCh_nil (l : List Char) : containsCh [] l = true := by
  cases l <;> simp [containsCh, isPrefixCh]

theorem containsCh_of_isPrefixCh {sub l : List Char}
    (h : isPrefixCh sub l = true) : containsCh sub l = true := by
  cases l with
  | nil => simpa [containsCh] using h
  | cons b bs => simp [containsCh, h]

theorem containsCh_append_left {sub a : List Char} (b : List Char)
    (h : containsCh sub a = true) : containsCh sub (a ++ b) = true := by
  induction a with
  | nil =>
      cases sub with
      | nil => exact containsCh_nil b
      | cons x xs => simp [containsCh, isPrefixCh] at h
  | cons c cs ih =>
      simp only [containsCh, Bool.or_eq_true] at h
      rcases h with h | h
      · have hp := @isPrefixCh_append sub (c :: cs) b h
        simp only [List.cons_append] at hp
        simp [containsCh, hp]
      · simp [containsCh, ih h]

theorem containsCh_append_right {sub b : List Char} (a : List Char)
    (h : containsCh sub b = true) : containsCh sub (a ++ b) = true := by
  induction a with
  | nil => simpa using h
  | cons c cs ih =>
      cases b with
      | nil =>
          cases sub with
          | nil => simp [containsCh_nil]
          | cons x xs => simp [containsCh, isPrefixCh] at h
      | cons d ds => simp [containsCh, ih]

theorem strContains_append_left {a : String} (b : String) {sub : String}
    (h : strContains a sub = true) : strContains (a ++ b) sub = true := by
  simpa [strContains, String.data_append] using containsCh_append_left b.data h

theorem strContains_append_right (a : String) {b sub : String}
    (h : strContains b sub = true) : strContains (a ++ b) sub = true := by
  simpa [strContains, String.data_append] using containsCh_append_right a.data h

theorem strContains_self (s : String) : strContains s s = true :=
  containsCh_of_isPrefixCh (isPrefixCh_refl s.data)

/-- Association-list lookup; the model of Go map indexing (`m[k]`).  Keys in
a Go map are unique, which the `busWF` invariant below records for the bus. -/
def lookupA {β : Type} : List (String × β) → String → Option β
  | [], _ => none
  | (k, v) :: rest, key => if k = key then some v else lookupA rest key

/-- Association-list insert-or-replace; the model of Go map assignment
(`m[k] = v`). -/
def insertA {β : Type} : List (String × β) → String → β → List (String × β)
  | [], key, v => [(key, v)]
  | (k, w) :: rest, key, v =>
      if k = key then (key, v) :: rest else (k, w) :: insertA rest key v

/-- Association-list removal; the model of Go `delete(m, k)`. -/
def eraseA {β : Type} : List (String × β) → String → List (String × β)
  | [], _ => []
  | (k, w) :: rest, key => if k = key then rest else (k, w) :: eraseA rest key

/-- `types.Trade` (the `types` package declaration is not under `src/`; the
fields are those read and written by `service.go` and listed in §4.2 of the
spec, plus the fee/timestamp fields of the mirrored `notifications` copy). -/
structure Trade where
  ID : String := ""
  Symbol : String := ""
  Side : String := ""
  Price : GoFloat := GoFloat.zero
  Quantity : GoFloat := GoFloat.zero
  BaseAsset : String := ""
  QuoteAsset : String := ""
  Fee : GoFloat := GoFloat.zero
  FeeCoin : String := ""
  Timestamp : Int := 0
deriving DecidableEq, Repr

/-- `types.Order` (field `Type` is rendered `Type'`, `Type` being a Lean
keyword). -/
structure Order where
  ID : String := ""
  Symbol : String := ""
  Side : String := ""
  Type' : String := ""
  Quantity : GoFloat := GoFloat.zero
  Price : GoFloat := GoFloat.zero
  ExecutedPrice : GoFloat := GoFloat.zero
  Status : String := ""
  Timestamp : Int := 0
deriving DecidableEq, Repr

/-- `types.Position`. -/
structure Position where
  ID : String := ""
  Symbol : String := ""
  Side : String := ""
  Quantity : GoFloat := GoFloat.zero
  EntryPrice : GoFloat := GoFloat.zero
  ExitPrice : GoFloat := GoFloat.zero
  RealizedPnL : GoFloat := GoFloat.zero
  UnrealizedPnL : GoFloat := GoFloat.zero
  OpenTime : Int := 0
  CloseTime : Int := 0
deriving DecidableEq, Repr

/-- `types.PnLUpdate`, with the fields `extractPnLUpdate` and
`handlePnLUpdate` use (the declaration itself is not under `src/`). -/
structure PnLUpdate where
  Symbol : String := ""
  PnL : GoFloat := GoFloat.zero
  PnLPercentage : GoFloat := GoFloat.zero
deriving DecidableEq, Repr

/-- `types.StrategyError`, with the fields `extractStrategyError` and
`handleStrategyError` use (the declaration itself is not under `src/`). -/
structure StrategyError where
  Strategy : String := ""
  Error : String := ""
deriving DecidableEq, Repr

/-- The universe of `interface{}` payload values an event may carry: plain
scalars, a string-keyed map, or one of the typed records (a pointer to a
record and the record itself behave identically under type assertion up to
the copy, so they share a constructor). -/
inductive GoValue where
  | str : String → GoValue
  | float : GoFloat → GoValue
  | int : Int → GoValue
  | boolean : Bool → GoValue
  | map : List (String × GoValue) → GoValue
  | trade : Trade → GoValue
  | order : Order → GoValue
  | position : Position → GoValue
  | pnlUpdate : PnLUpdate → GoValue
  | strategyError : StrategyError → GoValue
  | null : GoValue

/-- `eventbus.EventType`. -/
abbrev EventType := String

def EventTradeExecuted : EventType := "trade_executed"
def EventOrderFilled : EventType := "order_filled"
def EventPositionOpened : EventType := "position_opened"
def EventPositionClosed : EventType := "position_closed"
def EventPnLUpdate : EventType := "pnl_update"
def EventSystemError : EventType := "system_error"
def EventStrategyError : EventType := "strategy_error"

/-- `eventbus.Event`.  The timestamp is an abstract instant (`Nat`); `0` is
the zero `time.Time` (`Timestamp.IsZero()`).  Field `Type` is rendered
`Type'`. -/
structure Event where
  Type' : EventType
  Data : GoValue
  Timestamp : Nat

/-- `eventbus.EventBus`: the subscriber registry, a map from event type to a
map from subscriber ID to handler.  The handler type is a parameter. -/
structure EventBus (H : Type) where
  subscribers : List (EventType × List (String × H))

/-- `eventbus.NewEventBus`. -/
def NewEventBus {H : Type} : EventBus H := ⟨[]⟩

/-- `(*EventBus).Subscribe`.  A nil handler (`none`) is silently ignored. -/
def Subscribe {H : Type} (b : EventBus H) (eventType : EventType)
    (subscriberID : String) (handler : Option H) : EventBus H :=
  match handler with
  | none => b
  | some h =>
      let hs := (lookupA b.subscribers eventType).getD []
      ⟨insertA b.subscribers eventType (insertA hs subscriberID h)⟩

/-- `(*EventBus).Unsubscribe`: removes the handler if present; when the
per-type map becomes empty the type entry is deleted. -/
def Unsubscribe {H : Type} (b : EventBus H) (eventType : EventType)
    (subscriberID : String) : EventBus H :=
  match lookupA b.subscribers eventType with
  | none => b
  | some hs =>
      let hs' := eraseA hs subscriberID
      if hs'.isEmpty then ⟨eraseA b.subscribers eventType⟩
      else ⟨insertA b.subscribers eventType hs'⟩

/-- The per-type handler snapshot `Publish` copies under the read lock. -/
def handlersFor {H : Type} (b : EventBus H) (t : EventType) : List (String × H) :=
  (lookupA b.subscribers t).getD []

/-- `(*EventBus).Publish`: stamps a zero timestamp with the current time
`now`, snapshots the handlers registered for the event's type, and invokes
each with the (stamped) event.  The result is the stamped event together
with the invoked handler snapshot, in registration-registry order (Go map
iteration order is unspecified; no claim depends on the order). -/
def Publish {H : Type} (b : EventBus H) (event : Event) (now : Nat) : Event × List H :=
  let e := if event.Timestamp = 0 then { event with Timestamp := now } else event
  (e, (handlersFor b e.Type').map Prod.snd)

/-- `(*EventBus).PublishData`. -/
def PublishData {H : Type} (b : EventBus H) (eventType : EventType)
    (data : GoValue) (now : Nat) : Event × List H :=
  Publish b ⟨eventType, data, now⟩ now

/-- Well-formedness of the registry, which Go guarantees structurally: map
keys are unique at both levels, and no empty per-type map persists (the
documented registry invariant). -/
def busWF {H : Type} (b : EventBus H) : Prop :=
  (b.subscribers.map Prod.fst).Nodup ∧
    ∀ p ∈ b.subscribers, (p.2.map Prod.fst).Nodup ∧ p.2 ≠ []

/-- `config.NotificationConfig`. -/
structure NotificationConfig where
  ElementHomeserverURL : String
  ElementAccessToken : String
  ElementRoomID : String
  ElementEnabled : Bool
  TelegramBotToken : String
  TelegramChatID : String
  TelegramEnabled : Bool
  NotifyTradeExecution : Bool
  NotifyOrderFilled : Bool
  NotifyPositionChange : Bool
  NotifyPnLUpdate : Bool
  NotifyStopLoss : Bool
  NotifyTakeProfit : Bool
  NotifySystemErrors : Bool
  NotifyStrategyErrors : Bool
  ProfitThreshold : GoFloat
deriving DecidableEq, Repr

/-- `config.DefaultNotificationConfig`. -/
def DefaultNotificationConfig : NotificationConfig where
  ElementHomeserverURL := "https://matrix.org"
  ElementAccessToken := ""
  ElementRoomID := "!cryptobot:matrix.org"
  ElementEnabled := false
  TelegramBotToken := ""
  TelegramChatID := ""
  TelegramEnabled := false
  NotifyTradeExecution := true
  NotifyOrderFilled := true
  NotifyPositionChange := true
  NotifyPnLUpdate := true
  NotifyStopLoss := true
  NotifyTakeProfit := true
  NotifySystemErrors := true
  NotifyStrategyErrors := true
  ProfitThreshold := GoFloat.ofInt 1

/-- A `messenger.Messenger` capability handle: the concrete clients the
constructor builds, plus opaque caller-supplied implementations. -/
inductive Messenger where
  | element (homeserverURL accessToken roomID : String)
  | telegram (botToken chatID : String)
  | custom (name : String)
deriving DecidableEq, Repr

/-- `(*NotificationService).extractTrade`: a string-keyed map is read
field by field (a missing or mistyped field leaves the zero value), a typed
record is copied, anything else fails. -/
def extractTrade (data : GoValue) : Except String Trade :=
  match data with
  | .map m =>
      let t : Trade := {}
      let t := match lookupA m "id" with | some (.str v) => { t with ID := v } | _ => t
      let t := match lookupA m "symbol" with | some (.str v) => { t with Symbol := v } | _ => t
      let t := match lookupA m "side" with | some (.str v) => { t with Side := v } | _ => t
      let t := match lookupA m "price" with | some (.float v) => { t with Price := v } | _ => t
      let t := match lookupA m "quantity" with | some (.float v) => { t with Quantity := v } | _ => t
      let t := match lookupA m "base_asset" with | some (.str v) => { t with BaseAsset := v } | _ => t
      let t := match lookupA m "quote_asset" with | some (.str v) => { t with QuoteAsset := v } | _ => t
      .ok t
  | .trade t => .ok t
  | _ => .error "cannot extract trade from data"

/-- `(*NotificationService).extractOrder`. -/
def extractOrder (data : GoValue) : Except String Order :=
  match data with
  | .map m =>
      let o : Order := {}
      let o := match lookupA m "id" with | some (.str v) => { o with ID := v } | _ => o
      let o := match lookupA m "symbol" with | some (.str v) => { o with Symbol := v } | _ => o
      let o := match lookupA m "side" with | some (.str v) => { o with Side := v } | _ => o
      let o := match lookupA m "type" with | some (.str v) => { o with Type' := v } | _ => o
      let o := match lookupA m "quantity" with | some (.float v) => { o with Quantity := v } | _ => o
      let o := match lookupA m "price" with | some (.float v) => { o with Price := v } | _ => o
      let o := match lookupA m "executed_price" with | some (.float v) => { o with ExecutedPrice := v } | _ => o
      .ok o
  | .order o => .ok o
  | _ => .error "cannot extract order from data"

/-- `(*NotificationService).extractPosition`. -/
def extractPosition (data : GoValue) : Except String Position :=
  match data with
  | .map m =>
      let p : Position := {}
      let p := match lookupA m "id" with | some (.str v) => { p with ID := v } | _ => p
      let p := match lookupA m "symbol" with | some (.str v) => { p with Symbol := v } | _ => p
      let p := match lookupA m "side" with | some (.str v) => { p with Side := v } | _ => p
      let p := match lookupA m "quantity" with | some (.float v) => { p with Quantity := v } | _ => p
      let p := match lookupA m "entry_price" with | some (.float v) => { p with EntryPrice := v } | _ => p
      let p := match lookupA m "exit_price" with | some (.float v) => { p with ExitPrice := v } | _ => p
      let p := match lookupA m "realized_pnl" with | some (.float v) => { p with RealizedPnL := v } | _ => p
      .ok p
  | .position p => .ok p
  | _ => .error "cannot extract position from data"

/-- `(*NotificationService).extractPnLUpdate`. -/
def extractPnLUpdate (data : GoValue) : Except String PnLUpdate :=
  match data with
  | .map m =>
      let u : PnLUpdate := {}
      let u := match lookupA m "symbol" with | some (.str v) => { u with Symbol := v } | _ => u
      let u := match lookupA m "pnl" with | some (.float v) => { u with PnL := v } | _ => u
      let u := match lookupA m "pnl_percentage" with | some (.float v) => { u with PnLPercentage := v } | _ => u
      .ok u
  | .pnlUpdate u => .ok u
  | _ => .error "cannot extract PnL update from data"

/-- `(*NotificationService).extractStrategyError`. -/
def extractStrategyError (data : GoValue) : Except String StrategyError :=
  match data with
  | .map m =>
      let se : StrategyError := {}
      let se := match lookupA m "strategy" with | some (.str v) => { se with Strategy := v } | _ => se
      let se := match lookupA m "error" with | some (.str v) => { se with Error := v } | _ => se
      .ok se
  | .strategyError se => .ok se
  | _ => .error "cannot extract strategy error from data"

/-- The dispatch prefix `[timestamp] message` that `sendNotification`
builds before fanning out. -/
def fullMessage (timestamp message : String) : String :=
  "[" ++ timestamp ++ "] " ++ message

/-- `(*NotificationService).sendNotification`: prefixes the formatted local
time and issues one asynchronous send per registered messenger.  The model
returns the list of issued sends (the goroutines are independent and their
failures are only logged, so the sends are the whole observable effect). -/
def sendNotification (messengers : List Messenger) (timestamp message : String) :
    List (Messenger × String) :=
  messengers.map (fun m => (m, fullMessage timestamp message))

/-- A notification-service event handler, as the list of messages it passes
to `sendNotification` for a given event (each handler sends zero or one). -/
abbrev Handler := Event → List String

/-- `(*NotificationService).handleTradeExecuted`. -/
def handleTradeExecuted (_cfg : NotificationConfig) (event : Event) : List String :=
  match extractTrade event.Data with
  | .error err => ["⚠️ Received malformed trade execution event: " ++ err]
  | .ok trade =>
      ["💰 Trade Executed: " ++ trade.Side ++ " " ++ trade.Symbol ++ " " ++
        GoFloat.fmt 6 trade.Quantity ++ " " ++ trade.BaseAsset ++ " at price " ++
        GoFloat.fmt 2 trade.Price ++ " " ++ trade.QuoteAsset]

/-- `(*NotificationService).handleOrderFilled`. -/
def handleOrderFilled (cfg : NotificationConfig) (event : Event) : List String :=
  match extractOrder event.Data with
  | .error err => ["⚠️ Received malformed order filled event: " ++ err]
  | .ok order =>
      let isStopLoss := order.Type' == "stop" || order.Type' == "stop_market"
      let isTakeProfit := order.Type' == "take_profit" || order.Type' == "take_profit_market"
      if isStopLoss && !cfg.NotifyStopLoss then []
      else if isTakeProfit && !cfg.NotifyTakeProfit then []
      else
        let emoji := if isStopLoss then "🛑" else if isTakeProfit then "🎯" else "📝"
        [emoji ++ " Order Filled: " ++ order.Side ++ " " ++ order.Symbol ++ " " ++
          GoFloat.fmt 6 order.Quantity ++ " at price " ++ GoFloat.fmt 2 order.ExecutedPrice]

/-- `(*NotificationService).handlePositionOpened`. -/
def handlePositionOpened (_cfg : NotificationConfig) (event : Event) : List String :=
  match extractPosition event.Data with
  | .error err => ["⚠️ Received malformed position opened event: " ++ err]
  | .ok position =>
      ["🔓 Position Opened: " ++ position.Side ++ " " ++ position.Symbol ++ " " ++
        GoFloat.fmt 6 position.Quantity ++ " at entry price " ++
        GoFloat.fmt 2 position.EntryPrice]

/-- The profit/loss percentage `handlePositionClosed` computes:
`(exitPrice - entryPrice) / entryPrice * 100`, negated for a sell position.
The division is unguarded against `entryPrice = 0`. -/
def positionPnlPct (p : Position) : GoFloat :=
  let pct := GoFloat.mul (GoFloat.div (GoFloat.sub p.ExitPrice p.EntryPrice) p.EntryPrice)
    (GoFloat.ofInt 100)
  if p.Side == "sell" then GoFloat.neg pct else pct

/-- `(*NotificationService).handlePositionClosed`. -/
def handlePositionClosed (_cfg : NotificationConfig) (event : Event) : List String :=
  match extractPosition event.Data with
  | .error err => ["⚠️ Received malformed position closed event: " ++ err]
  | .ok position =>
      let pnl := position.RealizedPnL
      let pnlPercentage := positionPnlPct position
      let emoji := if GoFloat.gt pnl GoFloat.zero then "🔒💰" else "🔒📉"
      [emoji ++ " Position Closed: " ++ position.Side ++ " " ++ position.Symbol ++ " " ++
        GoFloat.fmt 6 position.Quantity ++ " at exit price " ++
        GoFloat.fmt 2 position.ExitPrice ++ " (P&L: " ++ GoFloat.fmt 2 pnl ++ " / " ++
        GoFloat.fmt 2 pnlPercentage ++ "%)"]

/-- `(*NotificationService).handlePnLUpdate`: suppresses the notification
when the percentage lies strictly between `-ProfitThreshold` and
`ProfitThreshold`. -/
def handlePnLUpdate (cfg : NotificationConfig) (event : Event) : List String :=
  match extractPnLUpdate event.Data with
  | .error err => ["⚠️ Received malformed PnL update event: " ++ err]
  | .ok pnlUpdate =>
      if GoFloat.lt pnlUpdate.PnLPercentage cfg.ProfitThreshold &&
          GoFloat.gt pnlUpdate.PnLPercentage (GoFloat.neg cfg.ProfitThreshold) then []
      else
        let emoji := if GoFloat.gt pnlUpdate.PnL GoFloat.zero then "📈" else "📉"
        [emoji ++ " P&L Update for " ++ pnlUpdate.Symbol ++ ": " ++
          GoFloat.fmt 2 pnlUpdate.PnL ++ " (" ++ GoFloat.fmt 2 pnlUpdate.PnLPercentage ++ "%)"]

/-- `(*NotificationService).handleSystemError`: the payload must be a plain
string. -/
def handleSystemError (_cfg : NotificationConfig) (event : Event) : List String :=
  match event.Data with
  | .str errorMsg => ["🚨 System Error: " ++ errorMsg]
  | _ => ["⚠️ Received malformed system error event"]

/-- `(*NotificationService).handleStrategyError`. -/
def handleStrategyError (_cfg : NotificationConfig) (event : Event) : List String :=
  match extractStrategyError event.Data with
  | .error err => ["⚠️ Received malformed strategy error event: " ++ err]
  | .ok strategyError =>
      ["🚨 Strategy Error in " ++ strategyError.Strategy ++ ": " ++ strategyError.Error]

/-- `service.NotificationService`. -/
structure NotificationService where
  messengers : List Messenger
  eventBus : EventBus Handler
  config : NotificationConfig

/-- `service.newNotificationService`: `none` for the config or bus selects
the default config or a fresh bus; `none` for the messenger list selects
configuration-driven messenger construction with its credential checks
(element checked before telegram, as in the source). -/
def newNotificationService (cfg? : Option NotificationConfig)
    (bus? : Option (EventBus Handler)) (messengers? : Option (List Messenger)) :
    Except String NotificationService :=
  let cfg := cfg?.getD DefaultNotificationConfig
  let bus := bus?.getD NewEventBus
  match messengers? with
  | some messengers => .ok ⟨messengers, bus, cfg⟩
  | none =>
      if cfg.ElementEnabled && cfg.ElementHomeserverURL == "" then
        .error "element homeserver URL is required when element is enabled"
      else if cfg.ElementEnabled && cfg.ElementAccessToken == "" then
        .error "element access token is required when element is enabled"
      else if cfg.ElementEnabled && cfg.ElementRoomID == "" then
        .error "element room ID is required when element is enabled"
      else if cfg.TelegramEnabled && cfg.TelegramBotToken == "" then
        .error "telegram bot token is required when telegram is enabled"
      else if cfg.TelegramEnabled && cfg.TelegramChatID == "" then
        .error "telegram chat ID is required when telegram is enabled"
      else
        let messengers :=
          (if cfg.ElementEnabled then
            [Messenger.element cfg.ElementHomeserverURL cfg.ElementAccessToken cfg.ElementRoomID]
          else []) ++
          (if cfg.TelegramEnabled then
            [Messenger.telegram cfg.TelegramBotToken cfg.TelegramChatID]
          else [])
        if messengers.isEmpty then
          .error "at least one messenger must be enabled in configuration"
        else .ok ⟨messengers, bus, cfg⟩

/-- `service.NewNotificationService`: configuration-driven construction. -/
def NewNotificationService (cfg? : Option NotificationConfig)
    (bus? : Option (EventBus Handler)) : Except String NotificationService :=
  newNotificationService cfg? bus? none

/-- `service.NewNotificationServiceWithMessengers`: a nil or empty messenger
list (`len(messengers) == 0`, both map to `[]`) is rejected. -/
def NewNotificationServiceWithMessengers (cfg? : Option NotificationConfig)
    (bus? : Option (EventBus Handler)) (messengers : List Messenger) :
    Except String NotificationService :=
  if messengers.isEmpty then .error "at least one messenger is required"
  else newNotificationService cfg? bus? (some messengers)

/-- `(*NotificationService).registerEventHandlers`: one subscription per
enabled category, all under the subscriber ID `"notification_service"`. -/
def registerEventHandlers (cfg : NotificationConfig) (b : EventBus Handler) :
    EventBus Handler :=
  let b1 := if cfg.NotifyTradeExecution then
      Subscribe b EventTradeExecuted "notification_service" (some (handleTradeExecuted cfg))
    else b
  let b2 := if cfg.NotifyOrderFilled then
      Subscribe b1 EventOrderFilled "notification_service" (some (handleOrderFilled cfg))
    else b1
  let b3 := if cfg.NotifyPositionChange then
      Subscribe
        (Subscribe b2 EventPositionOpened "notification_service" (some (handlePositionOpened cfg)))
        EventPositionClosed "notification_service" (some (handlePositionClosed cfg))
    else b2
  let b4 := if cfg.NotifyPnLUpdate then
      Subscribe b3 EventPnLUpdate "notification_service" (some (handlePnLUpdate cfg))
    else b3
  let b5 := if cfg.NotifySystemErrors then
      Subscribe b4 EventSystemError "notification_service" (some (handleSystemError cfg))
    else b4
  if cfg.NotifyStrategyErrors then
    Subscribe b5 EventStrategyError "notification_service" (some (handleStrategyError cfg))
  else b5

/-- `(*NotificationService).Start` on a service built over a fresh private
bus: the bus state after the startup registration. -/
def startBus (cfg : NotificationConfig) : EventBus Handler :=
  registerEventHandlers cfg NewEventBus

/-- `(*NotificationService).Start`: the startup message sent through the
dispatch path, and the registered bus. -/
def Start (cfg : NotificationConfig) (b : EventBus Handler) : String × EventBus Handler :=
  ("🤖 Notification service started", registerEventHandlers cfg b)

/-- All messages the notification-service handlers emit for one `Publish`
call on the given bus (the handlers run synchronously inside `Publish` and
each passes its messages to `sendNotification`). -/
def publishMessages (b : EventBus Handler) (event : Event) (now : Nat) : List String :=
  ((Publish b event now).2.map (fun h => h (Publish b event now).1)).flatten

/-- The built-in event categories the service can subscribe to;
`positionOpened` and `positionClosed` share one configuration toggle. -/
inductive Category where
  | trade
  | order
  | positionOpened
  | positionClosed
  | pnl
  | systemError
  | strategyError
deriving DecidableEq, Repr

/-- The bus event type of a category. -/
def Category.eventType : Category → EventType
  | .trade => EventTradeExecuted
  | .order => EventOrderFilled
  | .positionOpened => EventPositionOpened
  | .positionClosed => EventPositionClosed
  | .pnl => EventPnLUpdate
  | .systemError => EventSystemError
  | .strategyError => EventStrategyError

/-- The configuration toggle guarding a category's subscription. -/
def Category.toggle : Category → NotificationConfig → Bool
  | .trade, cfg => cfg.NotifyTradeExecution
  | .order, cfg => cfg.NotifyOrderFilled
  | .positionOpened, cfg => cfg.NotifyPositionChange
  | .positionClosed, cfg => cfg.NotifyPositionChange
  | .pnl, cfg => cfg.NotifyPnLUpdate
  | .systemError, cfg => cfg.NotifySystemErrors
  | .strategyError, cfg => cfg.NotifyStrategyErrors

/-- The handler `registerEventHandlers` subscribes for a category. -/
def Category.handler : Category → NotificationConfig → Handler
  | .trade, cfg => handleTradeExecuted cfg
  | .order, cfg => handleOrderFilled cfg
  | .positionOpened, cfg => handlePositionOpened cfg
  | .positionClosed, cfg => handlePositionClosed cfg
  | .pnl, cfg => handlePnLUpdate cfg
  | .systemError, cfg => handleSystemError cfg
  | .strategyError, cfg => handleStrategyError cfg

/-- Did the fallible computation succeed? -/
def isOkB {α : Type} : Except String α → Bool
  | .ok _ => true
  | .error _ => false

/-- A well-formed payload for a category: one its extraction step accepts. -/
def categoryWellFormed : Category → GoValue → Bool
  | .trade, d => isOkB (extractTrade d)
  | .order, d => isOkB (extractOrder d)
  | .positionOpened, d => isOkB (extractPosition d)
  | .positionClosed, d => isOkB (extractPosition d)
  | .pnl, d => isOkB (extractPnLUpdate d)
  | .systemError, d => match d with | .str _ => true | _ => false
  | .strategyError, d => isOkB (extractStrategyError d)

/-- Does the payload pass the category's filter policy (the order-type
toggles, the PnL threshold)?  Categories without a filter always pass. -/
def categoryPasses : Category → NotificationConfig → GoValue → Bool
  | .order, cfg, d =>
      match extractOrder d with
      | .ok o =>
          !(((o.Type' == "stop" || o.Type' == "stop_market") && !cfg.NotifyStopLoss) ||
            ((o.Type' == "take_profit" || o.Type' == "take_profit_market") && !cfg.NotifyTakeProfit))
      | .error _ => true
  | .pnl, cfg, d =>
      match extractPnLUpdate d with
      | .ok u =>
          !(GoFloat.lt u.PnLPercentage cfg.ProfitThreshold &&
            GoFloat.gt u.PnLPercentage (GoFloat.neg cfg.ProfitThreshold))
      | .error _ => true
  | _, _, _ => true

theorem lookupA_insertA_self {β : Type} (l : List (String × β)) (k : String) (v : β) :
    lookupA (insertA l k v) k = some v := by
  induction l with
  | nil => simp [insertA, lookupA]
  | cons hd tl ih =>
      obtain ⟨a, b⟩ := hd
      by_cases h : a = k
      · simp [insertA, lookupA, h]
      · simp [insertA, lookupA, h, ih]

theorem lookupA_insertA_ne {β : Type} {l : List (String × β)} {k k' : String}
    (hne : k' ≠ k) (v : β) : lookupA (insertA l k v) k' = lookupA l k' := by
  induction l with
  | nil => simp [insertA, lookupA, Ne.symm hne]
  | cons hd tl ih =>
      obtain ⟨a, b⟩ := hd
      by_cases h : a = k
      · subst h
        simp [insertA, lookupA, Ne.symm hne]
      · simp [insertA, lookupA, h, ih]

theorem insertA_of_lookupA_some {β : Type} {l : List (String × β)} {k : String} {v : β}
    (h : lookupA l k = some v) : insertA l k v = l := by
  induction l with
  | nil => simp [lookupA] at h
  | cons hd tl ih =>
      obtain ⟨a, b⟩ := hd
      by_cases hk : a = k
      · subst hk
        simp [lookupA] at h
        simp [insertA, h]
      · simp [lookupA, hk] at h
        simp [insertA, hk, ih h]

theorem lookupA_eraseA_ne {β : Type} {l : List (String × β)} {k k' : String}
    (hne : k' ≠ k) : lookupA (eraseA l k) k' = lookupA l k' := by
  induction l with
  | nil => simp [eraseA]
  | cons hd tl ih =>
      obtain ⟨a, b⟩ := hd
      by_cases h : a = k
      · subst h
        simp [eraseA, lookupA, Ne.symm hne]
      · simp [eraseA, lookupA, h, ih]

theorem eraseA_of_lookupA_none {β : Type} {l : List (String × β)} {k : String}
    (h : lookupA l k = none) : eraseA l k = l := by
  induction l with
  | nil => rfl
  | cons hd tl ih =>
      obtain ⟨a, b⟩ := hd
      by_cases hk : a = k
      · simp [lookupA, hk] at h
      · simp [lookupA, hk] at h
        simp [eraseA, hk, ih h]

theorem lookupA_mem {β : Type} {l : List (String × β)} {k : String} {v : β}
    (h : lookupA l k = some v) : (k, v) ∈ l := by
  induction l with
  | nil => simp [lookupA] at h
  | cons hd tl ih =>
      obtain ⟨a, b⟩ := hd
      by_cases hk : a = k
      · subst hk
        simp [lookupA] at h
        simp [h]
      · simp [lookupA, hk] at h
        simp [ih h]

theorem mem_insertA {β : Type} {l : List (String × β)} {k : String} {v : β}
    {p : String × β} (h : p ∈ insertA l k v) : p = (k, v) ∨ p ∈ l := by
  induction l with
  | nil =>
      simp [insertA] at h
      exact Or.inl h
  | cons hd tl ih =>
      obtain ⟨a, b⟩ := hd
      by_cases hk : a = k
      · subst hk
        simp only [insertA, if_pos rfl] at h
        rcases List.mem_cons.mp h with h' | h'
        · exact Or.inl h'
        · exact Or.inr (List.mem_cons_of_mem _ h')
      · simp only [insertA, if_neg hk] at h
        rcases List.mem_cons.mp h with h' | h'
        · exact Or.inr (h' ▸ List.mem_cons_self _ _)
        · rcases ih h' with h'' | h''
          · exact Or.inl h''
          · exact Or.inr (List.mem_cons_of_mem _ h'')

theorem mem_keys_insertA {β : Type} {l : List (String × β)} {k k' : String} {v : β} :
    k' ∈ (insertA l k v).map Prod.fst ↔ k' = k ∨ k' ∈ l.map Prod.fst := by
  induction l with
  | nil => simp [insertA]
  | cons hd tl ih =>
      obtain ⟨a, b⟩ := hd
      by_cases hk : a = k
      · subst hk
        rw [insertA, if_pos rfl]
        simp only [List.map_cons, List.mem_cons]
        tauto
      · rw [insertA, if_neg hk]
        simp only [List.map_cons, List.mem_cons, ih]
        tauto

theorem keys_nodup_insertA {β : Type} {l : List (String × β)} {k : String} {v : β}
    (h : (l.map Prod.fst).Nodup) : ((insertA l k v).map Prod.fst).Nodup := by
  induction l with
  | nil => simp [insertA]
  | cons hd tl ih =>
      obtain ⟨a, b⟩ := hd
      rw [List.map_cons, List.nodup_cons] at h
      by_cases hk : a = k
      · subst hk
        rw [insertA, if_pos rfl]
        simp only [List.map_cons, List.nodup_cons]
        exact ⟨h.1, h.2⟩
      · rw [insertA, if_neg hk]
        simp only [List.map_cons, List.nodup_cons]
        refine ⟨fun hmem => ?_, ih h.2⟩
        rcases mem_keys_insertA.mp hmem with h' | h'
        · exact hk h'
        · exact h.1 h'

theorem eraseA_sublist {β : Type} (l : List (String × β)) (k : String) :
    List.Sublist (eraseA l k) l := by
  induction l with
  | nil => simp [eraseA]
  | cons hd tl ih =>
      obtain ⟨a, b⟩ := hd
      by_cases hk : a = k
      · rw [eraseA, if_pos hk]
        exact List.sublist_cons_self (a, b) tl
      · rw [eraseA, if_neg hk]
        exact List.Sublist.cons₂ (a, b) ih

theorem mem_eraseA {β : Type} {l : List (String × β)} {k : String} {p : String × β}
    (h : p ∈ eraseA l k) : p ∈ l :=
  (eraseA_sublist l k).subset h

theorem keys_nodup_eraseA {β : Type} {l : List (String × β)} (k : String)
    (h : (l.map Prod.fst).Nodup) : ((eraseA l k).map Prod.fst).Nodup :=
  h.sublist ((eraseA_sublist l k).map Prod.fst)

theorem mem_eraseA_ne_key {β : Type} {l : List (String × β)} {k : String}
    {p : String × β} (hnd : (l.map Prod.fst).Nodup) (hp : p ∈ eraseA l k) :
    p.1 ≠ k := by
  induction l with
  | nil => simp [eraseA] at hp
  | cons hd tl ih =>
      obtain ⟨a, b⟩ := hd
      rw [List.map_cons, List.nodup_cons] at hnd
      by_cases hk : a = k
      · subst hk
        rw [eraseA, if_pos rfl] at hp
        intro hc
        have hm : p.1 ∈ List.map Prod.fst tl := List.mem_map_of_mem Prod.fst hp
        rw [hc] at hm
        exact hnd.1 hm
      · rw [eraseA, if_neg hk] at hp
        rcases List.mem_cons.mp hp with h' | h'
        · rw [h']
          exact hk
        · exact ih hnd.2 h'

theorem lookupA_eraseA_self {β : Type} {l : List (String × β)} {k : String}
    (hnd : (l.map Prod.fst).Nodup) : lookupA (eraseA l k) k = none := by
  cases hlk : lookupA (eraseA l k) k with
  | none => rfl
  | some v =>
      exact absurd rfl (mem_eraseA_ne_key hnd (lookupA_mem hlk))

theorem filter_key_eq_nil {β : Type} {l : List (String × β)} {k : String}
    (h : k ∉ l.map Prod.fst) : l.filter (fun p => p.1 == k) = [] := by
  induction l with
  | nil => rfl
  | cons hd tl ih =>
      obtain ⟨a, b⟩ := hd
      rw [List.map_cons, List.mem_cons] at h
      push_neg at h
      have hak : ((a, b).1 == k) = false :=
        beq_eq_false_iff_ne.mpr (fun hc => h.1 hc.symm)
      rw [List.filter_cons, hak]
      simpa using ih h.2

theorem countKey_insertA {β : Type} {l : List (String × β)} {k : String} {v : β}
    (hnd : (l.map Prod.fst).Nodup) :
    ((insertA l k v).filter (fun p => p.1 == k)).length = 1 := by
  induction l with
  | nil => simp [insertA]
  | cons hd tl ih =>
      obtain ⟨a, b⟩ := hd
      rw [List.map_cons, List.nodup_cons] at hnd
      by_cases hk : a = k
      · subst hk
        rw [insertA, if_pos rfl, List.filter_cons]
        simp [filter_key_eq_nil hnd.1]
      · rw [insertA, if_neg hk, List.filter_cons]
        have hak : ((a, b).1 == k) = false := beq_eq_false_iff_ne.mpr hk
        rw [hak]
        simpa using ih hnd.2

theorem handlersFor_subscribe_self {H : Type} (b : EventBus H) (t : EventType)
    (id : String) (h : H) :
    handlersFor (Subscribe b t id (some h)) t = insertA (handlersFor b t) id h := by
  simp [Subscribe, handlersFor, lookupA_insertA_self]

theorem handlersFor_subscribe_ne {H : Type} (b : EventBus H) {t t' : EventType}
    (hne : t' ≠ t) (id : String) (h? : Option H) :
    handlersFor (Subscribe b t id h?) t' = handlersFor b t' := by
  cases h? with
  | none => rfl
  | some h => simp [Subscribe, handlersFor, lookupA_insertA_ne hne]

theorem publish_fst_type {H : Type} (b : EventBus H) (e : Event) (now : Nat) :
    (Publish b e now).1.Type' = e.Type' := by
  by_cases h : e.Timestamp = 0 <;> simp [Publish, h]

theorem publish_fst_data {H : Type} (b : EventBus H) (e : Event) (now : Nat) :
    (Publish b e now).1.Data = e.Data := by
  by_cases h : e.Timestamp = 0 <;> simp [Publish, h]

theorem publish_snd {H : Type} (b : EventBus H) (e : Event) (now : Nat) :
    (Publish b e now).2 = (handlersFor b e.Type').map Prod.snd := by
  by_cases h : e.Timestamp = 0 <;> simp [Publish, h]

/-- The registry `Start` builds over a fresh bus: each built-in category's
event type carries exactly the service's handler when its toggle is on, and
nothing at all when its toggle is off. -/
theorem handlersFor_startBus (cfg : NotificationConfig) (c : Category) :
    handlersFor (startBus cfg) c.eventType =
      if c.toggle cfg then [("notification_service", c.handler cfg)] else [] := by
  obtain ⟨u1, u2, u3, ee, t1, t2, te, nte, nof, npc, npu, nsl, ntp, nse, nstre, pt⟩ := cfg
  cases c <;> cases nte <;> cases nof <;> cases npc <;> cases npu <;>
    cases nse <;> cases nstre <;> rfl

/-- Prefix test on strings, used to state which emoji a message starts
with. -/
def strStartsWith (s pre : String) : Bool := isPrefixCh pre.data s.data

theorem strStartsWith_extend {s pre : String} (y : String)
    (h : strStartsWith s pre = true) : strStartsWith (s ++ y) pre = true := by
  have := @isPrefixCh_append pre.data s.data y.data h
  simpa [strStartsWith, String.data_append] using this

theorem strStartsWith_refl (s : String) : strStartsWith s s = true :=
  isPrefixCh_refl s.data

theorem strStartsWith_self_append (pre y : String) :
    strStartsWith (pre ++ y) pre = true :=
  strStartsWith_extend y (strStartsWith_refl pre)

/-- If the absolute value is strictly below `t`, the value lies strictly
between `-t` and `t` (in IEEE comparison semantics). -/
theorem GoFloat.abs_lt_split (x t : GoFloat)
    (h : GoFloat.lt (GoFloat.abs x) t = true) :
    GoFloat.lt x t = true ∧ GoFloat.gt x (GoFloat.neg t) = true := by
  cases x with
  | finite a =>
      cases t with
      | finite b =>
          simp only [GoFloat.lt, GoFloat.gt, GoFloat.abs, GoFloat.neg, Frac.blt,
            decide_eq_true_eq] at h ⊢
          rw [Int.natCast_natAbs] at h
          have hb : (0 : Int) ≤ (b.den : Int) := Int.natCast_nonneg _
          have h1 : a.num * (b.den : Int) ≤ |a.num| * (b.den : Int) :=
            mul_le_mul_of_nonneg_right (le_abs_self _) hb
          have h2 : -|a.num| * (b.den : Int) ≤ a.num * (b.den : Int) :=
            mul_le_mul_of_nonneg_right (neg_abs_le _) hb
          constructor
          · linarith
          · linarith
      | posInf => simp [GoFloat.lt, GoFloat.gt, GoFloat.neg]
      | negInf => simp [GoFloat.lt, GoFloat.abs] at h
      | nan => simp [GoFloat.lt, GoFloat.abs] at h
  | posInf => cases t <;> simp_all [GoFloat.lt, GoFloat.abs]
  | negInf => cases t <;> simp_all [GoFloat.lt, GoFloat.abs]
  | nan => cases t <;> simp_all [GoFloat.lt, GoFloat.abs]

/-- If the absolute value is at least `t`, the value does not lie strictly
between `-t` and `t` (in IEEE comparison semantics). -/
theorem GoFloat.abs_ge_not_between (x t : GoFloat)
    (h : GoFloat.ge (GoFloat.abs x) t = true) :
    ¬(GoFloat.lt x t = true ∧ GoFloat.gt x (GoFloat.neg t) = true) := by
  rintro ⟨h1, h2⟩
  cases x with
  | finite a =>
      cases t with
      | finite b =>
          simp only [GoFloat.ge, GoFloat.abs, GoFloat.le, Frac.ble,
            decide_eq_true_eq] at h
          simp only [GoFloat.lt, Frac.blt, decide_eq_true_eq] at h1
          simp only [GoFloat.gt, GoFloat.neg, GoFloat.lt, Frac.blt,
            decide_eq_true_eq] at h2
          rw [Int.natCast_natAbs] at h
          rcases abs_cases a.num with ⟨he, _⟩ | ⟨he, _⟩ <;> rw [he] at h <;> linarith
      | posInf => simp [GoFloat.ge, GoFloat.le, GoFloat.abs] at h
      | negInf => simp [GoFloat.gt, GoFloat.lt, GoFloat.neg] at h2
      | nan => simp [GoFloat.ge, GoFloat.le] at h
  | posInf => cases t <;> simp_all [GoFloat.lt]
  | negInf =>
      cases t <;> simp_all [GoFloat.gt, GoFloat.lt, GoFloat.neg]
  | nan => cases t <;> simp_all [GoFloat.lt]

/-- A test configuration with every notification category enabled and the
default 1% profit threshold. -/
def cfgAllOn : NotificationConfig where
  ElementHomeserverURL := "https://matrix.org"
  ElementAccessToken := "token"
  ElementRoomID := "!room:id"
  ElementEnabled := true
  TelegramBotToken := ""
  TelegramChatID := ""
  TelegramEnabled := false
  NotifyTradeExecution := true
  NotifyOrderFilled := true
  NotifyPositionChange := true
  NotifyPnLUpdate := true
  NotifyStopLoss := true
  NotifyTakeProfit := true
  NotifySystemErrors := true
  NotifyStrategyErrors := true
  ProfitThreshold := GoFloat.ofInt 1

theorem busWF_new {H : Type} : busWF (NewEventBus : EventBus H) := by
  constructor
  · simp [NewEventBus]
  · intro p hp
    simp [NewEventBus] at hp

/-- C6: the subscription registry holds at most one handler per
`(EventType, subscriberID)` pair — re-subscribing the same pair replaces the
prior handler, so the registry holds exactly one entry for the pair (the
second handler), and a subsequent publish of that type invokes exactly the
per-type snapshot, hence exactly one handler for the pair. -/
theorem C6_resubscribe_replaces {H : Type} (b : EventBus H) (t : EventType)
    (id : String) (h1 h2 : H) (hwf : busWF b) (d : GoValue) (ts now : Nat) :
    lookupA (handlersFor (Subscribe (Subscribe b t id (some h1)) t id (some h2)) t) id
        = some h2 ∧
    ((handlersFor (Subscribe (Subscribe b t id (some h1)) t id (some h2)) t).filter
        (fun p => p.1 == id)).length = 1 ∧
    (Publish (Subscribe (Subscribe b t id (some h1)) t id (some h2)) ⟨t, d, ts⟩ now).2
        = (handlersFor (Subscribe (Subscribe b t id (some h1)) t id (some h2)) t).map
            Prod.snd := by
  have hrw : handlersFor (Subscribe (Subscribe b t id (some h1)) t id (some h2)) t
      = insertA (insertA (handlersFor b t) id h1) id h2 := by
    rw [handlersFor_subscribe_self, handlersFor_subscribe_self]
  have hnodup : ((handlersFor b t).map Prod.fst).Nodup := by
    cases hl : lookupA b.subscribers t with
    | none => simp [handlersFor, hl]
    | some hs =>
        have := hwf.2 _ (lookupA_mem hl)
        simpa [handlersFor, hl] using this.1
  refine ⟨?_, ?_, ?_⟩
  · rw [hrw]
    exact lookupA_insertA_self _ _ _
  · rw [hrw]
    exact countKey_insertA (keys_nodup_insertA hnodup)
  · exact publish_snd _ _ _

theorem C6_witness :
    busWF (NewEventBus : EventBus Nat) ∧
    lookupA (handlersFor (Subscribe (Subscribe (NewEventBus : EventBus Nat)
        "trade_executed" "svc" (some 1)) "trade_executed" "svc" (some 2))
      "trade_executed") "svc" = some 2 :=
  ⟨busWF_new,
    (C6_resubscribe_replaces (NewEventBus : EventBus Nat) "trade_executed" "svc" 1 2
      busWF_new GoValue.null 0 1).1⟩

/-- C7: `Unsubscribe` removes the handler for the pair if present (so a
subsequent publish of that type invokes no handler registered under the ID),
is a no-op when the pair is absent, deletes the type entry when the removed
handler was the last one, and preserves the registry invariant — in
particular no empty per-type map ever persists. -/
theorem C7_unsubscribe_removes {H : Type} (b : EventBus H) (t : EventType)
    (id : String) (hwf : busWF b) (d : GoValue) (ts now : Nat) :
    (∀ p ∈ handlersFor (Unsubscribe b t id) t, p.1 ≠ id) ∧
    (lookupA (handlersFor b t) id = none → Unsubscribe b t id = b) ∧
    busWF (Unsubscribe b t id) ∧
    (∀ hh : H, handlersFor b t = [(id, hh)] →
      lookupA (Unsubscribe b t id).subscribers t = none) ∧
    ((Publish (Unsubscribe b t id) ⟨t, d, ts⟩ now).2 =
      (handlersFor (Unsubscribe b t id) t).map Prod.snd) := by
  refine ⟨?_, ?_, ?_, ?_, publish_snd _ _ _⟩
  · intro p hp
    cases hl : lookupA b.subscribers t with
    | none =>
        simp only [Unsubscribe, hl] at hp
        simp [handlersFor, hl] at hp
    | some hs =>
        have hhs := hwf.2 _ (lookupA_mem hl)
        simp only [Unsubscribe, hl] at hp
        by_cases he : (eraseA hs id).isEmpty
        · rw [if_pos he] at hp
          have : lookupA (eraseA b.subscribers t) t = none := lookupA_eraseA_self hwf.1
          simp [handlersFor, this] at hp
        · rw [if_neg he] at hp
          have : handlersFor (⟨insertA b.subscribers t (eraseA hs id)⟩ : EventBus H) t
              = eraseA hs id := by
            simp [handlersFor, lookupA_insertA_self]
          rw [this] at hp
          exact mem_eraseA_ne_key hhs.1 hp
  · intro habs
    cases hl : lookupA b.subscribers t with
    | none => simp [Unsubscribe, hl]
    | some hs =>
        have hhs := hwf.2 _ (lookupA_mem hl)
        have her : eraseA hs id = hs :=
          eraseA_of_lookupA_none (by simpa [handlersFor, hl] using habs)
        have hemp : hs.isEmpty = false := by
          cases hs with
          | nil => exact absurd rfl hhs.2
          | cons x xs => rfl
        simp only [Unsubscribe, hl, her, hemp, Bool.false_eq_true, if_false]
        exact congrArg EventBus.mk (insertA_of_lookupA_some hl)
  · cases hl : lookupA b.subscribers t with
    | none => simpa [Unsubscribe, hl] using hwf
    | some hs =>
        have hhs := hwf.2 _ (lookupA_mem hl)
        by_cases he : (eraseA hs id).isEmpty
        · simp only [Unsubscribe, hl, if_pos he]
          refine ⟨keys_nodup_eraseA _ hwf.1, ?_⟩
          intro p hp
          exact hwf.2 p (mem_eraseA hp)
        · simp only [Unsubscribe, hl, if_neg he]
          refine ⟨keys_nodup_insertA hwf.1, ?_⟩
          intro p hp
          rcases mem_insertA hp with h' | h'
          · rw [h']
            refine ⟨keys_nodup_eraseA _ hhs.1, ?_⟩
            intro hnil
            exact he (by simp [show eraseA hs id = [] from hnil])
          · exact hwf.2 p h'
  · intro hh hsingle
    have hl : lookupA b.subscribers t = some [(id, hh)] := by
      cases hl' : lookupA b.subscribers t with
      | none => simp [handlersFor, hl'] at hsingle
      | some hs =>
          simp only [handlersFor, hl', Option.getD_some] at hsingle
          exact congrArg some hsingle
    have her : eraseA [(id, hh)] id = [] := by simp [eraseA]
    simp only [Unsubscribe, hl, her, List.isEmpty_nil, if_true]
    exact lookupA_eraseA_self hwf.1

theorem C7_witness :
    busWF (Subscribe (NewEventBus : EventBus Nat) "pnl_update" "svc" (some 7)) ∧
    (∀ p ∈ handlersFor (Unsubscribe (Subscribe (NewEventBus : EventBus Nat)
        "pnl_update" "svc" (some 7)) "pnl_update" "svc") "pnl_update",
      p.1 ≠ "svc") := by
  have hwf : busWF (Subscribe (NewEventBus : EventBus Nat) "pnl_update" "svc" (some 7)) := by
    constructor
    · simp [Subscribe, NewEventBus, insertA, lookupA]
    · intro p hp
      simp [Subscribe, NewEventBus, insertA, lookupA] at hp
      simp [hp]
  exact ⟨hwf,
    (C7_unsubscribe_removes (Subscribe (NewEventBus : EventBus Nat) "pnl_update" "svc"
      (some 7)) "pnl_update" "svc" hwf GoValue.null 0 1).1⟩

/-- C9: `Publish` stamps an unset (zero) timestamp with the current time and
leaves a set timestamp unchanged; the type and data are unchanged in both
cases; since `time.Now()` is never the zero instant, every invoked handler
observes a nonzero timestamp; and the invoked handlers are exactly the
snapshot registered for the event's type. -/
theorem C9_publish_timestamp {H : Type} (b : EventBus H) (event : Event)
    (now : Nat) (hnow : now ≠ 0) :
    ((Publish b event now).1.Type' = event.Type') ∧
    ((Publish b event now).1.Data = event.Data) ∧
    (event.Timestamp = 0 → (Publish b event now).1.Timestamp = now) ∧
    (event.Timestamp ≠ 0 → (Publish b event now).1 = event) ∧
    ((Publish b event now).1.Timestamp ≠ 0) ∧
    ((Publish b event now).2 = (handlersFor b event.Type').map Prod.snd) := by
  refine ⟨publish_fst_type b event now, publish_fst_data b event now, ?_, ?_, ?_,
    publish_snd b event now⟩
  · intro h0
    simp [Publish, h0]
  · intro hne
    simp [Publish, hne]
  · by_cases h0 : event.Timestamp = 0
    · simp only [Publish, if_pos h0]
      exact hnow
    · simp only [Publish, if_neg h0]
      exact h0

theorem C9_witness :
    (5 : Nat) ≠ 0 ∧
    (Publish (NewEventBus : EventBus Nat) ⟨"trade_executed", GoValue.null, 0⟩ 5).1.Timestamp
      = 5 :=
  ⟨by decide,
    (C9_publish_timestamp (NewEventBus : EventBus Nat) ⟨"trade_executed", GoValue.null, 0⟩ 5
      (by decide)).2.2.1 rfl⟩

/-- C8: constructing with an explicitly empty (or nil) messenger list fails
with a descriptive error; configuration-driven construction fails when no
messenger platform is enabled, or when an enabled platform is missing a
required credential — in every case no service is produced. -/
theorem C8_construction_errors (cfg : NotificationConfig)
    (bus? : Option (EventBus Handler)) :
    (∀ ms : List Messenger, ms = [] →
      NewNotificationServiceWithMessengers (some cfg) bus? ms =
        .error "at least one messenger is required") ∧
    (cfg.ElementEnabled = false → cfg.TelegramEnabled = false →
      isOkB (NewNotificationService (some cfg) bus?) = false) ∧
    (cfg.ElementEnabled = true →
      (cfg.ElementHomeserverURL = "" ∨ cfg.ElementAccessToken = "" ∨
        cfg.ElementRoomID = "") →
      isOkB (NewNotificationService (some cfg) bus?) = false) ∧
    (cfg.TelegramEnabled = true →
      (cfg.TelegramBotToken = "" ∨ cfg.TelegramChatID = "") →
      isOkB (NewNotificationService (some cfg) bus?) = false) := by
  refine ⟨?_, ?_, ?_, ?_⟩
  · intro ms hms
    subst hms
    simp [NewNotificationServiceWithMessengers]
  · intro he ht
    simp [NewNotificationService, newNotificationService, he, ht, isOkB]
  · intro he hcred
    simp only [NewNotificationService, newNotificationService, isOkB]
    split_ifs <;> first
      | rfl
      | (exfalso; rcases hcred with h | h | h <;> simp_all)
  · intro ht hcred
    simp only [NewNotificationService, newNotificationService, isOkB]
    split_ifs <;> first
      | rfl
      | (exfalso; rcases hcred with h | h <;> simp_all)

theorem C8_witness :
    ([] : List Messenger) = [] ∧
    NewNotificationServiceWithMessengers (some cfgAllOn) none [] =
      .error "at least one messenger is required" :=
  ⟨rfl, (C8_construction_errors cfgAllOn none).1 [] rfl⟩

/-- A PnL-update payload with a 5% percentage, above the 1% threshold. -/
def dPnl5 : GoValue :=
  .map [("symbol", .str "BTCUSDT"), ("pnl", .float (GoFloat.ofInt 5)),
    ("pnl_percentage", .float (GoFloat.ofInt 5))]

/-- The record `extractPnLUpdate` reads out of `dPnl5`. -/
def uPnl5 : PnLUpdate := ⟨"BTCUSDT", GoFloat.ofInt 5, GoFloat.ofInt 5⟩

def ePnl5 : Event := ⟨EventPnLUpdate, dPnl5, 1⟩

/-- C3: for a well-formed PnL-update event, `handlePnLUpdate` sends a
message exactly when the percentage does not lie strictly between
`-profitThreshold` and `profitThreshold`; in particular
`|pnlPercentage| < profitThreshold` yields no message and
`|pnlPercentage| ≥ profitThreshold` yields exactly one "P&L Update"
message. -/
theorem C3_pnl_threshold (cfg : NotificationConfig) (e : Event) (u : PnLUpdate)
    (hok : extractPnLUpdate e.Data = .ok u) :
    (handlePnLUpdate cfg e ≠ [] ↔
      ¬(GoFloat.lt u.PnLPercentage cfg.ProfitThreshold = true ∧
        GoFloat.gt u.PnLPercentage (GoFloat.neg cfg.ProfitThreshold) = true)) ∧
    (GoFloat.lt (GoFloat.abs u.PnLPercentage) cfg.ProfitThreshold = true →
      handlePnLUpdate cfg e = []) ∧
    (GoFloat.ge (GoFloat.abs u.PnLPercentage) cfg.ProfitThreshold = true →
      ∃ msg, handlePnLUpdate cfg e = [msg] ∧ strContains msg "P&L Update" = true) := by
  refine ⟨?_, ?_, ?_⟩
  · by_cases h1 : GoFloat.lt u.PnLPercentage cfg.ProfitThreshold = true <;>
      by_cases h2 : GoFloat.gt u.PnLPercentage (GoFloat.neg cfg.ProfitThreshold) = true <;>
        simp [handlePnLUpdate, hok, h1, h2]
  · intro habs
    obtain ⟨h1, h2⟩ := GoFloat.abs_lt_split _ _ habs
    simp [handlePnLUpdate, hok, h1, h2]
  · intro hge
    have hnb := GoFloat.abs_ge_not_between _ _ hge
    have hcond : (GoFloat.lt u.PnLPercentage cfg.ProfitThreshold &&
        GoFloat.gt u.PnLPercentage (GoFloat.neg cfg.ProfitThreshold)) = false := by
      cases hl : GoFloat.lt u.PnLPercentage cfg.ProfitThreshold <;>
        cases hg : GoFloat.gt u.PnLPercentage (GoFloat.neg cfg.ProfitThreshold) <;>
          simp_all
    have hout : handlePnLUpdate cfg e =
        [(if GoFloat.gt u.PnL GoFloat.zero then "📈" else "📉") ++ " P&L Update for " ++
          u.Symbol ++ ": " ++ GoFloat.fmt 2 u.PnL ++ " (" ++
          GoFloat.fmt 2 u.PnLPercentage ++ "%)"] := by
      simp [handlePnLUpdate, hok, hcond]
    exact ⟨_, hout,
      strContains_append_left _ (strContains_append_left _ (strContains_append_left _
        (strContains_append_left _ (strContains_append_left _ (strContains_append_left _
          (strContains_append_right _ (by decide)))))))⟩

theorem C3_witness :
    extractPnLUpdate ePnl5.Data = .ok uPnl5 ∧
    GoFloat.ge (GoFloat.abs uPnl5.PnLPercentage) cfgAllOn.ProfitThreshold = true ∧
    (∃ msg, handlePnLUpdate cfgAllOn ePnl5 = [msg] ∧
      strContains msg "P&L Update" = true) :=
  ⟨rfl, by decide, (C3_pnl_threshold cfgAllOn ePnl5 uPnl5 rfl).2.2 (by decide)⟩

/-- An order-filled payload for a stop order. -/
def dStop : GoValue :=
  .map [("symbol", .str "BTCUSDT"), ("side", .str "sell"), ("type", .str "stop"),
    ("quantity", .float (GoFloat.ofInt 1)),
    ("executed_price", .float (GoFloat.ofInt 64000))]

/-- The record `extractOrder` reads out of `dStop`. -/
def oStop : Order :=
  { Symbol := "BTCUSDT", Side := "sell", Type' := "stop",
    Quantity := GoFloat.ofInt 1, ExecutedPrice := GoFloat.ofInt 64000 }

def eStop : Event := ⟨EventOrderFilled, dStop, 1⟩

/-- C4: for a well-formed order-filled event, a stop-loss-typed order is
suppressed entirely when `NotifyStopLoss` is off and a take-profit-typed
order when `NotifyTakeProfit` is off; otherwise exactly one message is sent,
starting with 🛑 for stop-loss types, 🎯 for take-profit types, and 📝 for
every other order type. -/
theorem C4_order_filled_filter (cfg : NotificationConfig) (e : Event) (o : Order)
    (hok : extractOrder e.Data = .ok o) :
    ((o.Type' = "stop" ∨ o.Type' = "stop_market") → cfg.NotifyStopLoss = false →
      handleOrderFilled cfg e = []) ∧
    ((o.Type' = "take_profit" ∨ o.Type' = "take_profit_market") →
      cfg.NotifyTakeProfit = false → handleOrderFilled cfg e = []) ∧
    ((o.Type' = "stop" ∨ o.Type' = "stop_market") → cfg.NotifyStopLoss = true →
      ∃ msg, handleOrderFilled cfg e = [msg] ∧ strStartsWith msg "🛑" = true) ∧
    ((o.Type' = "take_profit" ∨ o.Type' = "take_profit_market") →
      cfg.NotifyTakeProfit = true →
      ∃ msg, handleOrderFilled cfg e = [msg] ∧ strStartsWith msg "🎯" = true) ∧
    (o.Type' ≠ "stop" → o.Type' ≠ "stop_market" → o.Type' ≠ "take_profit" →
      o.Type' ≠ "take_profit_market" →
      ∃ msg, handleOrderFilled cfg e = [msg] ∧ strStartsWith msg "📝" = true) := by
  refine ⟨?_, ?_, ?_, ?_, ?_⟩
  · intro hty hsl
    rcases hty with h | h <;> simp [handleOrderFilled, hok, h, hsl]
  · intro hty htp
    rcases hty with h | h <;> simp [handleOrderFilled, hok, h, htp]
  · intro hty hsl
    have hout : handleOrderFilled cfg e =
        ["🛑" ++ " Order Filled: " ++ o.Side ++ " " ++ o.Symbol ++ " " ++
          GoFloat.fmt 6 o.Quantity ++ " at price " ++ GoFloat.fmt 2 o.ExecutedPrice] := by
      rcases hty with h | h <;> simp [handleOrderFilled, hok, h, hsl]
    exact ⟨_, hout,
      strStartsWith_extend _ (strStartsWith_extend _ (strStartsWith_extend _
        (strStartsWith_extend _ (strStartsWith_extend _ (strStartsWith_extend _
          (strStartsWith_self_append _ _))))))⟩
  · intro hty htp
    have hout : handleOrderFilled cfg e =
        ["🎯" ++ " Order Filled: " ++ o.Side ++ " " ++ o.Symbol ++ " " ++
          GoFloat.fmt 6 o.Quantity ++ " at price " ++ GoFloat.fmt 2 o.ExecutedPrice] := by
      rcases hty with h | h <;> simp [handleOrderFilled, hok, h, htp]
    exact ⟨_, hout,
      strStartsWith_extend _ (strStartsWith_extend _ (strStartsWith_extend _
        (strStartsWith_extend _ (strStartsWith_extend _ (strStartsWith_extend _
          (strStartsWith_self_append _ _))))))⟩
  · intro h1 h2 h3 h4
    have b1 : (o.Type' == "stop") = false := beq_eq_false_iff_ne.mpr h1
    have b2 : (o.Type' == "stop_market") = false := beq_eq_false_iff_ne.mpr h2
    have b3 : (o.Type' == "take_profit") = false := beq_eq_false_iff_ne.mpr h3
    have b4 : (o.Type' == "take_profit_market") = false := beq_eq_false_iff_ne.mpr h4
    have hout : handleOrderFilled cfg e =
        ["📝" ++ " Order Filled: " ++ o.Side ++ " " ++ o.Symbol ++ " " ++
          GoFloat.fmt 6 o.Quantity ++ " at price " ++ GoFloat.fmt 2 o.ExecutedPrice] := by
      simp [handleOrderFilled, hok, b1, b2, b3, b4]
    exact ⟨_, hout,
      strStartsWith_extend _ (strStartsWith_extend _ (strStartsWith_extend _
        (strStartsWith_extend _ (strStartsWith_extend _ (strStartsWith_extend _
          (strStartsWith_self_append _ _))))))⟩

theorem C4_witness :
    extractOrder eStop.Data = .ok oStop ∧
    cfgAllOn.NotifyStopLoss = true ∧
    (∃ msg, handleOrderFilled cfgAllOn eStop = [msg] ∧
      strStartsWith msg "🛑" = true) :=
  ⟨rfl, rfl,
    (C4_order_filled_filter cfgAllOn eStop oStop rfl).2.2.1 (Or.inl rfl) rfl⟩

/-- The §4.2 profit-percentage formula as the spec words it —
`(exitPrice - entryPrice) / entryPrice * 100`, negated when the side is
"sell" — written independently of the handler for comparison with the
code's computation. -/
def claimPnlPct (p : Position) : GoFloat :=
  let pct := GoFloat.mul (GoFloat.div (GoFloat.sub p.ExitPrice p.EntryPrice) p.EntryPrice)
    (GoFloat.ofInt 100)
  if p.Side == "sell" then GoFloat.neg pct else pct

/-- The §8.9 scenario payload: entry 150, exit 165, realized P&L 75, a buy
position. -/
def dC5 : GoValue :=
  .map [("symbol", .str "AAPL"), ("side", .str "buy"),
    ("quantity", .float (GoFloat.ofInt 10)),
    ("entry_price", .float (GoFloat.ofInt 150)),
    ("exit_price", .float (GoFloat.ofInt 165)),
    ("realized_pnl", .float (GoFloat.ofInt 75))]

def eC5 : Event := ⟨EventPositionClosed, dC5, 1⟩

/-- C5: for a well-formed position-closed event the message reports the
realized P&L and the percentage `(exitPrice-entryPrice)/entryPrice*100`
(negated for a sell), with emoji 🔒💰 exactly when the realized P&L is
positive and 🔒📉 otherwise; at the §8.9 scenario the message contains
"P&L: 75.00 / 10.00%". -/
theorem C5_position_closed_message (cfg : NotificationConfig) (e : Event)
    (p : Position) (hok : extractPosition e.Data = .ok p) :
    (handlePositionClosed cfg e =
      [(if GoFloat.gt p.RealizedPnL GoFloat.zero then "🔒💰" else "🔒📉") ++
        " Position Closed: " ++ p.Side ++ " " ++ p.Symbol ++ " " ++
        GoFloat.fmt 6 p.Quantity ++ " at exit price " ++
        GoFloat.fmt 2 p.ExitPrice ++ " (P&L: " ++ GoFloat.fmt 2 p.RealizedPnL ++
        " / " ++ GoFloat.fmt 2 (claimPnlPct p) ++ "%)"]) ∧
    (∃ msg, handlePositionClosed cfgAllOn eC5 = [msg] ∧
      strContains msg "P&L: 75.00 / 10.00%" = true) := by
  constructor
  · simp [handlePositionClosed, hok, claimPnlPct, positionPnlPct]
  · exact ⟨_, rfl, by decide⟩

theorem C5_witness :
    extractPosition eC5.Data =
      .ok { Symbol := "AAPL", Side := "buy", Quantity := GoFloat.ofInt 10,
            EntryPrice := GoFloat.ofInt 150, ExitPrice := GoFloat.ofInt 165,
            RealizedPnL := GoFloat.ofInt 75 } ∧
    (∃ msg, handlePositionClosed cfgAllOn eC5 = [msg] ∧
      strContains msg "P&L: 75.00 / 10.00%" = true) :=
  ⟨rfl,
    (C5_position_closed_message cfgAllOn eC5
      { Symbol := "AAPL", Side := "buy", Quantity := GoFloat.ofInt 10,
        EntryPrice := GoFloat.ofInt 150, ExitPrice := GoFloat.ofInt 165,
        RealizedPnL := GoFloat.ofInt 75 } rfl).2⟩

/-- With a zero entry price the unguarded division makes the percentage a
non-finite IEEE value (`±Inf` or `NaN`), never a panic. -/
theorem positionPnlPct_zero_entry (p : Position)
    (hz : GoFloat.isZero p.EntryPrice = true) :
    GoFloat.isFinite (positionPnlPct p) = false := by
  cases hE : p.EntryPrice with
  | finite q =>
      have hq : q.num = 0 := by
        have := hz
        rw [hE] at this
        simpa [GoFloat.isZero] using this
      cases hX : p.ExitPrice <;>
        simp only [positionPnlPct, hE, hX, GoFloat.sub, GoFloat.div, hq] <;>
          split_ifs <;>
            simp_all [GoFloat.mul, GoFloat.ofInt, GoFloat.neg, GoFloat.isFinite]
  | posInf =>
      rw [hE] at hz
      simp [GoFloat.isZero] at hz
  | negInf =>
      rw [hE] at hz
      simp [GoFloat.isZero] at hz
  | nan =>
      rw [hE] at hz
      simp [GoFloat.isZero] at hz

/-- C10: a well-formed position-closed event with extracted entry price
zero still produces exactly one message (no panic); the percentage is a
non-finite IEEE value and its rendering appears in the message text. -/
theorem C10_zero_entry_price (cfg : NotificationConfig) (e : Event) (p : Position)
    (hok : extractPosition e.Data = .ok p)
    (hz : GoFloat.isZero p.EntryPrice = true) :
    ∃ msg, handlePositionClosed cfg e = [msg] ∧
      GoFloat.isFinite (positionPnlPct p) = false ∧
      strContains msg (GoFloat.fmt 2 (positionPnlPct p)) = true := by
  have hout : handlePositionClosed cfg e =
      [(if GoFloat.gt p.RealizedPnL GoFloat.zero then "🔒💰" else "🔒📉") ++
        " Position Closed: " ++ p.Side ++ " " ++ p.Symbol ++ " " ++
        GoFloat.fmt 6 p.Quantity ++ " at exit price " ++
        GoFloat.fmt 2 p.ExitPrice ++ " (P&L: " ++ GoFloat.fmt 2 p.RealizedPnL ++
        " / " ++ GoFloat.fmt 2 (positionPnlPct p) ++ "%)"] := by
    simp [handlePositionClosed, hok]
  refine ⟨_, hout, positionPnlPct_zero_entry p hz, ?_⟩
  exact strContains_append_left _ (strContains_append_right _ (strContains_self _))

/-- A position-closed payload with entry price zero and positive exit. -/
def dZeroEntry : GoValue :=
  .map [("symbol", .str "AAPL"), ("side", .str "buy"),
    ("quantity", .float (GoFloat.ofInt 10)),
    ("entry_price", .float (GoFloat.ofInt 0)),
    ("exit_price", .float (GoFloat.ofInt 165)),
    ("realized_pnl", .float (GoFloat.ofInt 75))]

def eZeroEntry : Event := ⟨EventPositionClosed, dZeroEntry, 1⟩

def pZeroEntry : Position :=
  { Symbol := "AAPL", Side := "buy", Quantity := GoFloat.ofInt 10,
    EntryPrice := GoFloat.ofInt 0, ExitPrice := GoFloat.ofInt 165,
    RealizedPnL := GoFloat.ofInt 75 }

theorem C10_witness :
    extractPosition eZeroEntry.Data = .ok pZeroEntry ∧
    GoFloat.isZero pZeroEntry.EntryPrice = true ∧
    (∃ msg, handlePositionClosed cfgAllOn eZeroEntry = [msg] ∧
      GoFloat.isFinite (positionPnlPct pZeroEntry) = false ∧
      strContains msg (GoFloat.fmt 2 (positionPnlPct pZeroEntry)) = true) :=
  ⟨rfl, rfl, C10_zero_entry_price cfgAllOn eZeroEntry pZeroEntry rfl rfl⟩

/-- The string a map field yields: the value when present with the asserted
type, the zero value otherwise (`m[k].(string)`). -/
def getStrField (m : List (String × GoValue)) (k : String) : String :=
  match lookupA m k with
  | some (.str v) => v
  | _ => ""

/-- The float a map field yields (`m[k].(float64)`). -/
def getFloatField (m : List (String × GoValue)) (k : String) : GoFloat :=
  match lookupA m k with
  | some (.float v) => v
  | _ => GoFloat.zero

/-- The trade `extractTrade` reads field-by-field out of a map payload. -/
def tradeOfMap (m : List (String × GoValue)) : Trade :=
  { ID := getStrField m "id", Symbol := getStrField m "symbol",
    Side := getStrField m "side", Price := getFloatField m "price",
    Quantity := getFloatField m "quantity", BaseAsset := getStrField m "base_asset",
    QuoteAsset := getStrField m "quote_asset" }

/-- The order `extractOrder` reads field-by-field out of a map payload. -/
def orderOfMap (m : List (String × GoValue)) : Order :=
  { ID := getStrField m "id", Symbol := getStrField m "symbol",
    Side := getStrField m "side", Type' := getStrField m "type",
    Quantity := getFloatField m "quantity", Price := getFloatField m "price",
    ExecutedPrice := getFloatField m "executed_price" }

/-- The position `extractPosition` reads field-by-field out of a map
payload. -/
def positionOfMap (m : List (String × GoValue)) : Position :=
  { ID := getStrField m "id", Symbol := getStrField m "symbol",
    Side := getStrField m "side", Quantity := getFloatField m "quantity",
    EntryPrice := getFloatField m "entry_price",
    ExitPrice := getFloatField m "exit_price",
    RealizedPnL := getFloatField m "realized_pnl" }

/-- The record `extractPnLUpdate` reads field-by-field out of a map
payload. -/
def pnlUpdateOfMap (m : List (String × GoValue)) : PnLUpdate :=
  { Symbol := getStrField m "symbol", PnL := getFloatField m "pnl",
    PnLPercentage := getFloatField m "pnl_percentage" }

/-- The record `extractStrategyError` reads field-by-field out of a map
payload. -/
def strategyErrorOfMap (m : List (String × GoValue)) : StrategyError :=
  { Strategy := getStrField m "strategy", Error := getStrField m "error" }

theorem extractTrade_map (m : List (String × GoValue)) :
    extractTrade (GoValue.map m) = .ok (tradeOfMap m) := by
  simp only [extractTrade, tradeOfMap, getStrField, getFloatField]
  repeat' split <;> try rfl

theorem extractOrder_map (m : List (String × GoValue)) :
    extractOrder (GoValue.map m) = .ok (orderOfMap m) := by
  simp only [extractOrder, orderOfMap, getStrField, getFloatField]
  repeat' split <;> try rfl

theorem extractPosition_map (m : List (String × GoValue)) :
    extractPosition (GoValue.map m) = .ok (positionOfMap m) := by
  simp only [extractPosition, positionOfMap, getStrField, getFloatField]
  repeat' split <;> try rfl

theorem extractPnLUpdate_map (m : List (String × GoValue)) :
    extractPnLUpdate (GoValue.map m) = .ok (pnlUpdateOfMap m) := by
  simp only [extractPnLUpdate, pnlUpdateOfMap, getStrField, getFloatField]
  repeat' split <;> try rfl

theorem extractStrategyError_map (m : List (String × GoValue)) :
    extractStrategyError (GoValue.map m) = .ok (strategyErrorOfMap m) := by
  simp only [extractStrategyError, strategyErrorOfMap, getStrField, getFloatField]
  repeat' split <;> try rfl

/-- Payload shapes `extractTrade` accepts: a map or a typed trade record. -/
def tradeCompatible : GoValue → Bool
  | .map _ => true
  | .trade _ => true
  | _ => false

/-- Payload shapes `extractOrder` accepts. -/
def orderCompatible : GoValue → Bool
  | .map _ => true
  | .order _ => true
  | _ => false

/-- Payload shapes `extractPosition` accepts. -/
def positionCompatible : GoValue → Bool
  | .map _ => true
  | .position _ => true
  | _ => false

/-- Payload shapes `extractPnLUpdate` accepts. -/
def pnlUpdateCompatible : GoValue → Bool
  | .map _ => true
  | .pnlUpdate _ => true
  | _ => false

/-- Payload shapes `extractStrategyError` accepts. -/
def strategyErrorCompatible : GoValue → Bool
  | .map _ => true
  | .strategyError _ => true
  | _ => false

/-- C2: for every structured-category extractor — trade, order, position,
PnL update, strategy error — a string-keyed map is read field-by-field with
every field optional (absent or mistyped fields stay at the zero value;
extraction never fails on a map), an already-typed record is copied
directly, and a payload of any other shape makes the handler send exactly
one warning message containing "Received malformed" instead of the normal
notification, without crashing (all handlers are total functions). -/
theorem C2_extraction_policy :
    (∀ m : List (String × GoValue),
      extractTrade (GoValue.map m) = .ok (tradeOfMap m) ∧
      extractOrder (GoValue.map m) = .ok (orderOfMap m) ∧
      extractPosition (GoValue.map m) = .ok (positionOfMap m) ∧
      extractPnLUpdate (GoValue.map m) = .ok (pnlUpdateOfMap m) ∧
      extractStrategyError (GoValue.map m) = .ok (strategyErrorOfMap m)) ∧
    ((∀ t, extractTrade (GoValue.trade t) = .ok t) ∧
      (∀ o, extractOrder (GoValue.order o) = .ok o) ∧
      (∀ p, extractPosition (GoValue.position p) = .ok p) ∧
      (∀ u, extractPnLUpdate (GoValue.pnlUpdate u) = .ok u) ∧
      (∀ se, extractStrategyError (GoValue.strategyError se) = .ok se)) ∧
    (∀ (cfg : NotificationConfig) (e : Event),
      (tradeCompatible e.Data = false →
        ∃ msg, handleTradeExecuted cfg e = [msg] ∧
          strContains msg "Received malformed" = true) ∧
      (orderCompatible e.Data = false →
        ∃ msg, handleOrderFilled cfg e = [msg] ∧
          strContains msg "Received malformed" = true) ∧
      (positionCompatible e.Data = false →
        (∃ msg, handlePositionOpened cfg e = [msg] ∧
          strContains msg "Received malformed" = true) ∧
        (∃ msg, handlePositionClosed cfg e = [msg] ∧
          strContains msg "Received malformed" = true)) ∧
      (pnlUpdateCompatible e.Data = false →
        ∃ msg, handlePnLUpdate cfg e = [msg] ∧
          strContains msg "Received malformed" = true) ∧
      (strategyErrorCompatible e.Data = false →
        ∃ msg, handleStrategyError cfg e = [msg] ∧
          strContains msg "Received malformed" = true)) := by
  refine ⟨?_, ?_, ?_⟩
  · intro m
    exact ⟨extractTrade_map m, extractOrder_map m, extractPosition_map m,
      extractPnLUpdate_map m, extractStrategyError_map m⟩
  · exact ⟨fun t => rfl, fun o => rfl, fun p => rfl, fun u => rfl, fun se => rfl⟩
  · intro cfg e
    refine ⟨?_, ?_, ?_, ?_, ?_⟩
    · intro hc
      have herr : extractTrade e.Data = .error "cannot extract trade from data" := by
        cases hd : e.Data <;> simp_all [tradeCompatible, extractTrade]
      exact ⟨"⚠️ Received malformed trade execution event: cannot extract trade from data",
        by simp [handleTradeExecuted, herr], by decide⟩
    · intro hc
      have herr : extractOrder e.Data = .error "cannot extract order from data" := by
        cases hd : e.Data <;> simp_all [orderCompatible, extractOrder]
      exact ⟨"⚠️ Received malformed order filled event: cannot extract order from data",
        by simp [handleOrderFilled, herr], by decide⟩
    · intro hc
      have herr : extractPosition e.Data = .error "cannot extract position from data" := by
        cases hd : e.Data <;> simp_all [positionCompatible, extractPosition]
      exact ⟨⟨"⚠️ Received malformed position opened event: cannot extract position from data",
        by simp [handlePositionOpened, herr], by decide⟩,
        ⟨"⚠️ Received malformed position closed event: cannot extract position from data",
          by simp [handlePositionClosed, herr], by decide⟩⟩
    · intro hc
      have herr : extractPnLUpdate e.Data = .error "cannot extract PnL update from data" := by
        cases hd : e.Data <;> simp_all [pnlUpdateCompatible, extractPnLUpdate]
      exact ⟨"⚠️ Received malformed PnL update event: cannot extract PnL update from data",
        by simp [handlePnLUpdate, herr], by decide⟩
    · intro hc
      have herr : extractStrategyError e.Data =
          .error "cannot extract strategy error from data" := by
        cases hd : e.Data <;> simp_all [strategyErrorCompatible, extractStrategyError]
      exact ⟨"⚠️ Received malformed strategy error event: cannot extract strategy error from data",
        by simp [handleStrategyError, herr], by decide⟩

theorem C2_witness :
    tradeCompatible (GoValue.str "junk") = false ∧
    (∃ msg, handleTradeExecuted cfgAllOn ⟨EventTradeExecuted, GoValue.str "junk", 1⟩ = [msg] ∧
      strContains msg "Received malformed" = true) :=
  ⟨rfl,
    (C2_extraction_policy.2.2 cfgAllOn ⟨EventTradeExecuted, GoValue.str "junk", 1⟩).1 rfl⟩

/-- A well-formed PnL-update payload with percentage 0, which lies strictly
inside the default 1% threshold. -/
def dPnl0 : GoValue :=
  .map [("symbol", .str "BTCUSDT"), ("pnl", .float GoFloat.zero),
    ("pnl_percentage", .float GoFloat.zero)]

def ePnl0 : Event := ⟨EventPnLUpdate, dPnl0, 1⟩

/-- C1 fails as stated: with every toggle on, a *well-formed* PnL-update
event whose percentage is below the threshold produces no message at all —
the toggle being on and the payload being well-formed do not suffice for
"exactly one formatted message". -/
theorem C1_counterexample :
    Category.toggle Category.pnl cfgAllOn = true ∧
    categoryWellFormed Category.pnl dPnl0 = true ∧
    publishMessages (startBus cfgAllOn) ePnl0 1 = [] :=
  ⟨rfl, rfl, by decide⟩

theorem bool_not_true {x : Bool} (h : (!x) = true) : x = false := by
  cases x with
  | false => rfl
  | true => simp at h

theorem bool_or_false_left {a b : Bool} (h : (a || b) = false) : a = false := by
  cases a with
  | false => rfl
  | true => simp at h

theorem bool_or_false_right {a b : Bool} (h : (a || b) = false) : b = false := by
  cases b with
  | false => rfl
  | true => simp at h

/-- A handler invoked on a well-formed payload that passes its category's
filter policy emits exactly one message. -/
theorem categoryHandler_length (cfg : NotificationConfig) (c : Category) (e : Event)
    (hwf : categoryWellFormed c e.Data = true)
    (hpass : categoryPasses c cfg e.Data = true) :
    (Category.handler c cfg e).length = 1 := by
  cases c with
  | trade =>
      cases hx : extractTrade e.Data with
      | error err => simp [categoryWellFormed, isOkB, hx] at hwf
      | ok t => simp [Category.handler, handleTradeExecuted, hx]
  | order =>
      cases hx : extractOrder e.Data with
      | error err => simp [categoryWellFormed, isOkB, hx] at hwf
      | ok o =>
          simp only [categoryPasses, hx] at hpass
          have hp := bool_not_true hpass
          simp [Category.handler, handleOrderFilled, hx, bool_or_false_left hp,
            bool_or_false_right hp]
  | positionOpened =>
      cases hx : extractPosition e.Data with
      | error err => simp [categoryWellFormed, isOkB, hx] at hwf
      | ok p => simp [Category.handler, handlePositionOpened, hx]
  | positionClosed =>
      cases hx : extractPosition e.Data with
      | error err => simp [categoryWellFormed, isOkB, hx] at hwf
      | ok p => simp [Category.handler, handlePositionClosed, hx]
  | pnl =>
      cases hx : extractPnLUpdate e.Data with
      | error err => simp [categoryWellFormed, isOkB, hx] at hwf
      | ok u =>
          simp only [categoryPasses, hx] at hpass
          simp [Category.handler, handlePnLUpdate, hx, bool_not_true hpass]
  | systemError =>
      cases hd : e.Data <;> simp_all [categoryWellFormed, Category.handler,
        handleSystemError]
  | strategyError =>
      cases hx : extractStrategyError e.Data with
      | error err => simp [categoryWellFormed, isOkB, hx] at hwf
      | ok se => simp [Category.handler, handleStrategyError, hx]

/-- C1 (amended): for every built-in category whose toggle is off, `Start`
registers no subscription for the category's event type and publishing an
event of that type produces no messenger send; for every category whose
toggle is on and whose payload is well-formed *and passes the category's
filter policy* (the order-type toggles and the PnL threshold — see the
counterexample), publishing produces exactly one formatted message, and
dispatch delivers it to every registered messenger. -/
theorem C1_toggle_gating (cfg : NotificationConfig) (c : Category) (d : GoValue)
    (ts now : Nat) :
    (Category.toggle c cfg = false →
      handlersFor (startBus cfg) c.eventType = [] ∧
      publishMessages (startBus cfg) ⟨c.eventType, d, ts⟩ now = []) ∧
    (Category.toggle c cfg = true → categoryWellFormed c d = true →
      categoryPasses c cfg d = true →
      ∃ msg, publishMessages (startBus cfg) ⟨c.eventType, d, ts⟩ now = [msg] ∧
        ∀ (msgrs : List Messenger) (timestamp : String), ∀ mr ∈ msgrs,
          (mr, fullMessage timestamp msg) ∈ sendNotification msgrs timestamp msg) := by
  have hreg := handlersFor_startBus cfg c
  constructor
  · intro hoff
    simp only [hoff, Bool.false_eq_true, if_false] at hreg
    refine ⟨hreg, ?_⟩
    have h2 : (Publish (startBus cfg) ⟨c.eventType, d, ts⟩ now).2 = [] := by
      simp [publish_snd, hreg]
    simp [publishMessages, h2]
  · intro hon hwf hpass
    simp only [hon, if_true] at hreg
    have h2 : (Publish (startBus cfg) ⟨c.eventType, d, ts⟩ now).2 =
        [Category.handler c cfg] := by
      simp [publish_snd, hreg]
    have hd : (Publish (startBus cfg) ⟨c.eventType, d, ts⟩ now).1.Data = d :=
      publish_fst_data _ _ _
    have hlen := categoryHandler_length cfg c
      (Publish (startBus cfg) ⟨c.eventType, d, ts⟩ now).1
      (by rw [hd]; exact hwf) (by rw [hd]; exact hpass)
    obtain ⟨msg, hmsg⟩ := List.length_eq_one.mp hlen
    refine ⟨msg, ?_, ?_⟩
    · simp [publishMessages, h2, hmsg]
    · intro msgrs timestamp mr hmr
      exact List.mem_map_of_mem _ hmr

theorem C1_witness :
    Category.toggle Category.trade cfgAllOn = true ∧
    categoryWellFormed Category.trade (GoValue.map [("symbol", GoValue.str "BTCUSDT"),
      ("side", GoValue.str "buy")]) = true ∧
    categoryPasses Category.trade cfgAllOn (GoValue.map [("symbol", GoValue.str "BTCUSDT"),
      ("side", GoValue.str "buy")]) = true ∧
    (∃ msg, publishMessages (startBus cfgAllOn)
        ⟨Category.eventType Category.trade,
          GoValue.map [("symbol", GoValue.str "BTCUSDT"), ("side", GoValue.str "buy")], 1⟩ 1
      = [msg] ∧
      ∀ (msgrs : List Messenger) (timestamp : String), ∀ mr ∈ msgrs,
        (mr, fullMessage timestamp msg) ∈ sendNotification msgrs timestamp msg) :=
  ⟨rfl, rfl, rfl,
    (C1_toggle_gating cfgAllOn Category.trade
      (GoValue.map [("symbol", GoValue.str "BTCUSDT"), ("side", GoValue.str "buy")]) 1 1).2
      rfl rfl rfl⟩

end Gonotify
